import Mathlib

/-!
Verification of the spatial event explorer of the `localevents` repository.

The list-processing algorithms of the source (greedy nearest-neighbour route
ordering, proximity sorting, city grouping) are embedded over an abstract
distance function `d : ℚ → ℚ → ℚ → ℚ → ℚ` taking `(lat1, lon1, lat2, lon2)`,
mirroring the call signature of the source's `getDistance`.  The geometric
Haversine formula itself is embedded over `ℝ` separately and its metric
properties are proved there.  JavaScript's stable `Array.prototype.sort`
is modelled by a stable insertion sort (`jsSort`); for a consistent
comparator the stable sorted permutation is unique, so this coincides with
any engine's sort.
-/

namespace LocalEvents

/-- A longitude/latitude pair, as the `{ lng, lat }` objects of the source. -/
structure Pos where
  lng : ℚ
  lat : ℚ
deriving DecidableEq, Repr

/-- Abstract distance function with the argument order of the source's
`getDistance(lat1, lon1, lat2, lon2)`. -/
abbrev DistFn := ℚ → ℚ → ℚ → ℚ → ℚ

/-! ### A model of JavaScript's stable sort -/

/-- Insert `a` into `l` before the first element `b` with `le a b`.
Used to model stable sorting: an earlier element is placed before later
elements that compare equal to it. -/
def jsOrderedInsert (le : α → α → Bool) (a : α) : List α → List α
  | [] => [a]
  | b :: l => if le a b then a :: b :: l else b :: jsOrderedInsert le a l

/-- Stable insertion sort modelling `Array.prototype.sort` with comparator
`cmp`, where `le a b` stands for `cmp(a, b) <= 0`. -/
def jsSort (le : α → α → Bool) : List α → List α
  | [] => []
  | a :: l => jsOrderedInsert le a (jsSort le l)

theorem mem_jsOrderedInsert {le : α → α → Bool} {a x : α} {l : List α} :
    x ∈ jsOrderedInsert le a l ↔ x = a ∨ x ∈ l := by
  induction l with
  | nil => simp [jsOrderedInsert]
  | cons b t ih =>
    by_cases h : le a b = true
    · simp [jsOrderedInsert, h]
    · simp only [jsOrderedInsert, if_neg h, List.mem_cons, ih]
      tauto

theorem jsOrderedInsert_perm (le : α → α → Bool) (a : α) (l : List α) :
    (jsOrderedInsert le a l).Perm (a :: l) := by
  induction l with
  | nil => simp [jsOrderedInsert]
  | cons b t ih =>
    by_cases h : le a b = true
    · simp [jsOrderedInsert, h]
    · simp only [jsOrderedInsert, if_neg h]
      exact (ih.cons b).trans (List.Perm.swap a b t)

theorem jsSort_perm (le : α → α → Bool) (l : List α) :
    (jsSort le l).Perm l := by
  induction l with
  | nil => simp [jsSort]
  | cons a t ih =>
    exact (jsOrderedInsert_perm le a (jsSort le t)).trans (ih.cons a)

theorem mem_jsSort {le : α → α → Bool} {l : List α} {x : α} :
    x ∈ jsSort le l ↔ x ∈ l :=
  (jsSort_perm le l).mem_iff

theorem length_jsSort (le : α → α → Bool) (l : List α) :
    (jsSort le l).length = l.length :=
  (jsSort_perm le l).length_eq

theorem jsOrderedInsert_pairwise {le : α → α → Bool} {a : α} {l : List α}
    (htot : ∀ x ∈ a :: l, ∀ y ∈ a :: l, le x y = true ∨ le y x = true)
    (htrans : ∀ x ∈ a :: l, ∀ y ∈ a :: l, ∀ z ∈ a :: l,
      le x y = true → le y z = true → le x z = true)
    (hl : List.Pairwise (fun x y => le x y = true) l) :
    List.Pairwise (fun x y => le x y = true) (jsOrderedInsert le a l) := by
  induction l with
  | nil => simp [jsOrderedInsert]
  | cons b t ih =>
    rcases List.pairwise_cons.mp hl with ⟨hb, ht⟩
    by_cases h : le a b = true
    · simp only [jsOrderedInsert, if_pos h]
      refine List.pairwise_cons.mpr ⟨?_, hl⟩
      intro x hx
      rcases List.mem_cons.mp hx with rfl | hx
      · exact h
      · exact htrans a (by simp) b (by simp) x (by simp [hx]) h (hb x hx)
    · simp only [jsOrderedInsert, if_neg h]
      refine List.pairwise_cons.mpr ⟨?_, ?_⟩
      · intro x hx
        rcases mem_jsOrderedInsert.mp hx with rfl | hx
        · rcases htot x (by simp) b (by simp) with hxb | hbx
          · exact absurd hxb h
          · exact hbx
        · exact hb x hx
      · have hsub : ∀ x ∈ a :: t, x ∈ a :: b :: t := by
          intro x hx
          rcases List.mem_cons.mp hx with rfl | hx
          · simp
          · simp [hx]
        exact ih (fun x hx y hy => htot x (hsub x hx) y (hsub y hy))
          (fun x hx y hy z hz => htrans x (hsub x hx) y (hsub y hy) z (hsub z hz)) ht

theorem jsSort_pairwise {le : α → α → Bool} {l : List α}
    (htot : ∀ x ∈ l, ∀ y ∈ l, le x y = true ∨ le y x = true)
    (htrans : ∀ x ∈ l, ∀ y ∈ l, ∀ z ∈ l,
      le x y = true → le y z = true → le x z = true) :
    List.Pairwise (fun x y => le x y = true) (jsSort le l) := by
  induction l with
  | nil => simp [jsSort]
  | cons a t ih =>
    have hmem : ∀ x ∈ a :: jsSort le t, x ∈ a :: t := by
      intro x hx
      rcases List.mem_cons.mp hx with rfl | hx
      · simp
      · simp [mem_jsSort.mp hx]
    refine jsOrderedInsert_pairwise ?_ ?_ ?_
    · intro x hx y hy
      exact htot x (hmem x hx) y (hmem y hy)
    · intro x hx y hy z hz
      exact htrans x (hmem x hx) y (hmem y hy) z (hmem z hz)
    · refine ih ?_ ?_
      · intro x hx y hy
        exact htot x (by simp [hx]) y (by simp [hy])
      · intro x hx y hy z hz
        exact htrans x (by simp [hx]) y (by simp [hy]) z (by simp [hz])

/-! ### Route panel (`EventRoutePanel`): greedy nearest-neighbour ordering -/

namespace EventRoutePanel

/-- The `EventWithCoords` interface of the route panel component. -/
structure EventWithCoords where
  id : String
  title : String
  description : String
  location : String
  latitude : ℚ
  longitude : ℚ
  date : String
  times : Option String
  cost : Option String
  categories : List String
  city : Option String
  imageUrl : Option String
deriving DecidableEq, Repr

/-- The inner `for` loop of `orderEventsByProximity`: scan the remaining
stops left to right, keeping the index of the best stop seen so far and
updating only on a strictly smaller distance. -/
def scanMin (f : α → ℚ) : List α → ℚ → Nat → Nat → Nat
  | [], _, _, bestIdx => bestIdx
  | x :: xs, bestDist, i, bestIdx =>
    if f x < bestDist then scanMin f xs (f x) (i + 1) i
    else scanMin f xs bestDist (i + 1) bestIdx

/-- The index selected by the source's scan starting from
`nearestIdx = 0, nearestDist = Infinity`: on a nonempty list the first
iteration always improves on `Infinity`, so the scan continues from the
head's distance. -/
def nearestIdx (f : α → ℚ) : List α → Nat
  | [] => 0
  | x :: xs => scanMin f xs (f x) 1 0

/-- The while loop of `orderEventsByProximity`; the fuel is the initial
length of `remaining`, which the loop decreases by one each iteration. -/
def orderAux (d : DistFn) : Nat → Pos → List EventWithCoords → List EventWithCoords
  | 0, _, _ => []
  | fuel + 1, cur, remaining =>
    match remaining with
    | [] => []
    | _ :: _ =>
      let k := nearestIdx (fun e => d cur.lat cur.lng e.latitude e.longitude) remaining
      match remaining[k]? with
      | none => []
      | some nearest =>
        nearest :: orderAux d fuel ⟨nearest.longitude, nearest.latitude⟩ (remaining.eraseIdx k)

/-- `orderEventsByProximity(start, selectedEvents)` of the source, over an
abstract distance function. -/
def orderEventsByProximity (d : DistFn) (start : Pos)
    (selectedEvents : List EventWithCoords) : List EventWithCoords :=
  if selectedEvents.isEmpty then [] else orderAux d selectedEvents.length start selectedEvents

/-- Modelled from the spec's words: pick the unvisited stop nearest to the
current position, breaking ties (equal distances) in favour of the earlier
stop in the input order; return the chosen stop and the remaining stops. -/
def specPick (f : α → ℚ) : List α → Option (α × List α)
  | [] => none
  | x :: xs =>
    match specPick f xs with
    | none => some (x, [])
    | some (y, ys) => if f x ≤ f y then some (x, xs) else some (y, x :: ys)

/-- Modelled from the spec's words: starting from a reference point,
repeatedly pick the unvisited stop nearest to the current position, move to
it, repeat until all stops are visited. -/
def specGreedyAux (d : DistFn) : Nat → Pos → List EventWithCoords → List EventWithCoords
  | 0, _, _ => []
  | fuel + 1, cur, remaining =>
    match specPick (fun e => d cur.lat cur.lng e.latitude e.longitude) remaining with
    | none => []
    | some (y, ys) => y :: specGreedyAux d fuel ⟨y.longitude, y.latitude⟩ ys

/-- The greedy route order demanded by the spec. -/
def specGreedyOrder (d : DistFn) (start : Pos)
    (selectedEvents : List EventWithCoords) : List EventWithCoords :=
  specGreedyAux d selectedEvents.length start selectedEvents

/-- First index attaining the minimum of `f`, by structural recursion. -/
def firstArgmin (f : α → ℚ) : List α → Nat
  | [] => 0
  | x :: xs => if ∀ y ∈ xs, f x ≤ f y then 0 else firstArgmin f xs + 1

theorem scanMin_eq (f : α → ℚ) :
    ∀ (xs : List α) (bD : ℚ) (i bIdx : Nat),
      scanMin f xs bD i bIdx =
        if ∀ x ∈ xs, bD ≤ f x then bIdx else i + firstArgmin f xs := by
  intro xs
  induction xs with
  | nil => intro bD i bIdx; simp [scanMin]
  | cons x t ih =>
    intro bD i bIdx
    by_cases hx : f x < bD
    · rw [scanMin, if_pos hx, ih]
      have hcond : ¬ ∀ y ∈ x :: t, bD ≤ f y := by
        intro h
        exact absurd (h x (by simp)) (not_le.mpr hx)
      rw [if_neg hcond]
      by_cases hall : ∀ y ∈ t, f x ≤ f y
      · rw [if_pos hall, firstArgmin, if_pos hall]
        omega
      · rw [if_neg hall, firstArgmin, if_neg hall]
        omega
    · rw [scanMin, if_neg hx, ih]
      have hbx : bD ≤ f x := not_lt.mp hx
      by_cases hall : ∀ y ∈ t, bD ≤ f y
      · have hcond : ∀ y ∈ x :: t, bD ≤ f y := by
          intro y hy
          rcases List.mem_cons.mp hy with rfl | hy
          · exact hbx
          · exact hall y hy
        rw [if_pos hall, if_pos hcond]
      · have hcond : ¬ ∀ y ∈ x :: t, bD ≤ f y := by
          intro h
          exact hall fun y hy => h y (by simp [hy])
        rw [if_neg hall, if_neg hcond]
        have hxall : ¬ ∀ y ∈ t, f x ≤ f y := by
          intro h
          push_neg at hall
          rcases hall with ⟨y, hmem, hlt⟩
          exact absurd (le_trans hbx (h y hmem)) (not_le.mpr hlt)
        rw [firstArgmin, if_neg hxall]
        omega

theorem nearestIdx_eq_firstArgmin (f : α → ℚ) (x : α) (t : List α) :
    nearestIdx f (x :: t) = firstArgmin f (x :: t) := by
  rw [nearestIdx, scanMin_eq, firstArgmin]
  by_cases hall : ∀ y ∈ t, f x ≤ f y
  · rw [if_pos hall, if_pos hall]
  · rw [if_neg hall, if_neg hall]
    omega

theorem specPick_eq_none (f : α → ℚ) :
    ∀ (xs : List α), specPick f xs = none ↔ xs = [] := by
  intro xs
  cases xs with
  | nil => simp [specPick]
  | cons x t =>
    cases hp : specPick f t with
    | none => simp [specPick, hp]
    | some p =>
      obtain ⟨y, ys⟩ := p
      simp only [specPick, hp]
      split <;> simp

theorem specPick_min (f : α → ℚ) :
    ∀ (xs : List α) (y : α) (ys : List α), specPick f xs = some (y, ys) →
      y ∈ xs ∧ ∀ z ∈ xs, f y ≤ f z := by
  intro xs
  induction xs with
  | nil => intro y ys h; simp [specPick] at h
  | cons x t ih =>
    intro y ys h
    cases hp : specPick f t with
    | none =>
      have ht : t = [] := (specPick_eq_none f t).mp hp
      subst ht
      simp only [specPick, Option.some.injEq, Prod.mk.injEq] at h
      obtain ⟨rfl, rfl⟩ := h
      exact ⟨by simp, by simp⟩
    | some p =>
      obtain ⟨y0, ys0⟩ := p
      simp only [specPick, hp] at h
      rcases ih y0 ys0 hp with ⟨hy0mem, hy0min⟩
      by_cases hle : f x ≤ f y0
      · rw [if_pos hle] at h
        simp only [Option.some.injEq, Prod.mk.injEq] at h
        obtain ⟨rfl, rfl⟩ := h
        refine ⟨by simp, ?_⟩
        intro z hz
        rcases List.mem_cons.mp hz with rfl | hz
        · exact le_refl _
        · exact le_trans hle (hy0min z hz)
      · rw [if_neg hle] at h
        simp only [Option.some.injEq, Prod.mk.injEq] at h
        obtain ⟨rfl, rfl⟩ := h
        refine ⟨by simp [hy0mem], ?_⟩
        intro z hz
        rcases List.mem_cons.mp hz with rfl | hz
        · exact le_of_lt (not_le.mp hle)
        · exact hy0min z hz

theorem specPick_eq_firstArgmin (f : α → ℚ) :
    ∀ (xs : List α),
      specPick f xs =
        (xs[firstArgmin f xs]?).map
          (fun y => (y, xs.eraseIdx (firstArgmin f xs))) := by
  intro xs
  induction xs with
  | nil => simp [specPick]
  | cons x t ih =>
    cases hp : specPick f t with
    | none =>
      have ht : t = [] := (specPick_eq_none f t).mp hp
      subst ht
      simp [specPick, firstArgmin]
    | some p =>
      obtain ⟨y, ys⟩ := p
      rcases specPick_min f t y ys hp with ⟨hymem, hymin⟩
      have hk : t[firstArgmin f t]? = some y ∧ t.eraseIdx (firstArgmin f t) = ys := by
        rw [hp] at ih
        cases hg : t[firstArgmin f t]? with
        | none => rw [hg] at ih; simp at ih
        | some z =>
          rw [hg] at ih
          simp only [Option.map_some', Option.some.injEq, Prod.mk.injEq] at ih
          exact ⟨by rw [ih.1], ih.2.symm⟩
      simp only [specPick, hp]
      by_cases hle : f x ≤ f y
      · rw [if_pos hle]
        have hall : ∀ z ∈ t, f x ≤ f z := fun z hz => le_trans hle (hymin z hz)
        rw [firstArgmin, if_pos hall]
        simp
      · rw [if_neg hle]
        have hall : ¬ ∀ z ∈ t, f x ≤ f z := fun h => hle (h y hymem)
        rw [firstArgmin, if_neg hall]
        simp [hk.1, hk.2]

/-- **C1 key step**: the source's index scan and the spec's tie-aware
nearest pick select the same stop and leave the same remainder. -/
theorem specPick_eq_code (f : α → ℚ) (xs : List α) :
    specPick f xs =
      (xs[nearestIdx f xs]?).map (fun y => (y, xs.eraseIdx (nearestIdx f xs))) := by
  cases xs with
  | nil => simp [specPick, nearestIdx]
  | cons x t => rw [specPick_eq_firstArgmin, nearestIdx_eq_firstArgmin]

theorem orderAux_eq_specGreedyAux (d : DistFn) :
    ∀ (fuel : Nat) (cur : Pos) (remaining : List EventWithCoords),
      orderAux d fuel cur remaining = specGreedyAux d fuel cur remaining := by
  intro fuel
  induction fuel with
  | zero => intro cur remaining; rfl
  | succ n ih =>
    intro cur remaining
    cases remaining with
    | nil => rfl
    | cons r rs =>
      rw [orderAux, specGreedyAux,
        specPick_eq_code (fun e => d cur.lat cur.lng e.latitude e.longitude) (r :: rs)]
      cases hk : (r :: rs)[nearestIdx
          (fun e => d cur.lat cur.lng e.latitude e.longitude) (r :: rs)]? with
      | none => simp [hk]
      | some nearest => simp only [hk, Option.map_some']; rw [ih]

end EventRoutePanel

/-- C1: for every start coordinate, distance function and list of selected
events, `orderEventsByProximity` visits stops exactly in the order obtained
by repeatedly choosing the unvisited stop with the smallest distance from
the current position (start first, then the last visited stop), with
equal-distance ties broken in favour of the earlier stop in the input
order; being a function of the distance function, start point and input
order, the result is uniquely determined by them. -/
theorem claim1_greedy_order_matches_spec (d : DistFn) (start : Pos)
    (selectedEvents : List EventRoutePanel.EventWithCoords) :
    EventRoutePanel.orderEventsByProximity d start selectedEvents =
      EventRoutePanel.specGreedyOrder d start selectedEvents := by
  rw [EventRoutePanel.orderEventsByProximity, EventRoutePanel.specGreedyOrder]
  by_cases h : selectedEvents.isEmpty
  · rw [if_pos h]
    rcases List.isEmpty_iff.mp h with rfl
    rfl
  · rw [if_neg h, EventRoutePanel.orderAux_eq_specGreedyAux]

/-! ### The Haversine distance formula (`getDistance` / `calculateDistance`) -/

/-- JavaScript's `Math.atan2(y, x)`. -/
noncomputable def arctan2 (y x : ℝ) : ℝ :=
  if 0 < x then Real.arctan (y / x)
  else if x < 0 then
    (if 0 ≤ y then Real.arctan (y / x) + Real.pi else Real.arctan (y / x) - Real.pi)
  else
    (if 0 < y then Real.pi / 2 else if y < 0 then -(Real.pi / 2) else 0)

/-- The intermediate value `a` of the source's Haversine implementation:
`sin(dLat/2)^2 + cos(lat1 deg) * cos(lat2 deg) * sin(dLon/2)^2` with angles
converted from degrees to radians. -/
noncomputable def haversineA (lat1 lon1 lat2 lon2 : ℝ) : ℝ :=
  Real.sin ((lat2 - lat1) * Real.pi / 180 / 2) * Real.sin ((lat2 - lat1) * Real.pi / 180 / 2) +
    Real.cos (lat1 * Real.pi / 180) * Real.cos (lat2 * Real.pi / 180) *
      (Real.sin ((lon2 - lon1) * Real.pi / 180 / 2) * Real.sin ((lon2 - lon1) * Real.pi / 180 / 2))

/-- The source's Haversine distance with Earth radius `R`:
`c = 2 * atan2(sqrt(a), sqrt(1 - a))`, result `R * c`. -/
noncomputable def haversine (R lat1 lon1 lat2 lon2 : ℝ) : ℝ :=
  R * (2 * arctan2 (Real.sqrt (haversineA lat1 lon1 lat2 lon2))
    (Real.sqrt (1 - haversineA lat1 lon1 lat2 lon2)))

/-- `getDistance` of the map page and route panel (`R = 6371` km). -/
noncomputable def getDistance (lat1 lon1 lat2 lon2 : ℝ) : ℝ :=
  haversine 6371 lat1 lon1 lat2 lon2

/-- `calculateDistance` of the map component (`R = 3959` miles). -/
noncomputable def calculateDistance (lat1 lon1 lat2 lon2 : ℝ) : ℝ :=
  haversine 3959 lat1 lon1 lat2 lon2

theorem haversineA_symm (lat1 lon1 lat2 lon2 : ℝ) :
    haversineA lat1 lon1 lat2 lon2 = haversineA lat2 lon2 lat1 lon1 := by
  have e1 : Real.sin ((lat1 - lat2) * Real.pi / 180 / 2) =
      -Real.sin ((lat2 - lat1) * Real.pi / 180 / 2) := by
    rw [show (lat1 - lat2) * Real.pi / 180 / 2 = -((lat2 - lat1) * Real.pi / 180 / 2) by ring,
      Real.sin_neg]
  have e2 : Real.sin ((lon1 - lon2) * Real.pi / 180 / 2) =
      -Real.sin ((lon2 - lon1) * Real.pi / 180 / 2) := by
    rw [show (lon1 - lon2) * Real.pi / 180 / 2 = -((lon2 - lon1) * Real.pi / 180 / 2) by ring,
      Real.sin_neg]
  rw [haversineA, haversineA, e1, e2]
  ring

theorem haversine_symm (R lat1 lon1 lat2 lon2 : ℝ) :
    haversine R lat1 lon1 lat2 lon2 = haversine R lat2 lon2 lat1 lon1 := by
  rw [haversine, haversine, haversineA_symm lat2 lon2 lat1 lon1]

theorem haversineA_self (lat lon : ℝ) : haversineA lat lon lat lon = 0 := by
  rw [haversineA]
  simp [sub_self]

theorem arctan2_zero_one : arctan2 0 1 = 0 := by
  rw [arctan2, if_pos one_pos]
  norm_num [Real.arctan_zero]

theorem haversine_self (R lat lon : ℝ) : haversine R lat lon lat lon = 0 := by
  rw [haversine, haversineA_self]
  norm_num [arctan2_zero_one]

/-- One degree of latitude (same longitude) under the source's formula is
exactly `R * pi / 180`. -/
theorem haversine_one_degree_lat (R : ℝ) :
    haversine R 0 0 1 0 = R * (Real.pi / 180) := by
  have hpi := Real.pi_pos
  set θ : ℝ := Real.pi / 360 with hθ
  have hθpos : 0 < θ := by positivity
  have hθlt : θ < Real.pi / 2 := by
    rw [hθ]
    nlinarith
  have hsin_nonneg : 0 ≤ Real.sin θ :=
    Real.sin_nonneg_of_nonneg_of_le_pi (le_of_lt hθpos) (by nlinarith)
  have hcos_pos : 0 < Real.cos θ :=
    Real.cos_pos_of_mem_Ioo ⟨by nlinarith, hθlt⟩
  have hA : haversineA 0 0 1 0 = Real.sin θ * Real.sin θ := by
    rw [haversineA]
    have harg : (1 - 0 : ℝ) * Real.pi / 180 / 2 = θ := by rw [hθ]; ring
    rw [harg]
    simp [sub_self]
  have hsqrtA : Real.sqrt (haversineA 0 0 1 0) = Real.sin θ := by
    rw [hA]
    exact Real.sqrt_mul_self hsin_nonneg
  have honeminus : 1 - haversineA 0 0 1 0 = Real.cos θ * Real.cos θ := by
    rw [hA]
    have := Real.sin_sq_add_cos_sq θ
    nlinarith
  have hsqrtB : Real.sqrt (1 - haversineA 0 0 1 0) = Real.cos θ := by
    rw [honeminus, Real.sqrt_mul_self (le_of_lt hcos_pos)]
  rw [haversine, hsqrtA, hsqrtB, arctan2, if_pos hcos_pos,
    ← Real.tan_eq_sin_div_cos, Real.arctan_tan (by nlinarith) hθlt]
  rw [hθ]
  ring

/-- C9: the Haversine distance of the source is symmetric and zero on the
diagonal for every Earth radius (hence for both the kilometre variant
`getDistance` and the mile variant `calculateDistance`), and two points one
degree of latitude apart are roughly 111 km apart under `getDistance`. -/
theorem claim9_haversine_metric_properties :
    (∀ R lat1 lon1 lat2 lon2 : ℝ,
        haversine R lat1 lon1 lat2 lon2 = haversine R lat2 lon2 lat1 lon1) ∧
    (∀ R lat lon : ℝ, haversine R lat lon lat lon = 0) ∧
    (∀ lat1 lon1 lat2 lon2 : ℝ,
        getDistance lat1 lon1 lat2 lon2 = getDistance lat2 lon2 lat1 lon1 ∧
        calculateDistance lat1 lon1 lat2 lon2 = calculateDistance lat2 lon2 lat1 lon1) ∧
    (∀ lat lon : ℝ, getDistance lat lon lat lon = 0 ∧ calculateDistance lat lon lat lon = 0) ∧
    (111 ≤ getDistance 0 0 1 0 ∧ getDistance 0 0 1 0 ≤ 112) := by
  refine ⟨haversine_symm, haversine_self, ?_, ?_, ?_⟩
  · intro lat1 lon1 lat2 lon2
    exact ⟨haversine_symm 6371 lat1 lon1 lat2 lon2, haversine_symm 3959 lat1 lon1 lat2 lon2⟩
  · intro lat lon
    exact ⟨haversine_self 6371 lat lon, haversine_self 3959 lat lon⟩
  · rw [getDistance, haversine_one_degree_lat]
    constructor
    · nlinarith [Real.pi_gt_3141592]
    · nlinarith [Real.pi_lt_3141593]

/-! ### Route panel wizard state machine -/

namespace EventRoutePanel

/-- The `Step` union type of the route panel:
`'location' | 'events' | 'transport' | 'route'`. -/
inductive Step
  | location
  | events
  | transport
  | route
deriving DecidableEq, Repr

/-- `TransportMode`: `'walking' | 'cycling' | 'driving'`. -/
inductive TransportMode
  | walking
  | cycling
  | driving
deriving DecidableEq, Repr

/-- The `RouteSummary` record: total distance, total duration and per-leg
`(distance, duration)` pairs. -/
structure RouteSummary where
  distance : ℚ
  duration : ℚ
  legs : List (ℚ × ℚ)
deriving DecidableEq, Repr

/-- The `useState` cells of `EventRoutePanel` gathered into one record. -/
structure PanelState where
  step : Step
  startLocation : Option Pos
  isGettingLocation : Bool
  locationError : Option String
  addressInput : String
  cityInput : String
  isGeocodingAddress : Bool
  nearbyEvents : List (EventWithCoords × ℚ)
  selectedEventIds : Finset String
  transportMode : TransportMode
  isGeneratingRoute : Bool
  routeError : Option String
  routeSummary : Option RouteSummary
deriving DecidableEq

/-- The initial `useState` values of the panel when no route exists yet
(`hasExistingRoute = false`); `userLocation` prefills the start. -/
def initialPanelState (userLocation : Option Pos) : PanelState where
  step := .location
  startLocation := userLocation
  isGettingLocation := false
  locationError := none
  addressInput := ""
  cityInput := ""
  isGeocodingAddress := false
  nearbyEvents := []
  selectedEventIds := ∅
  transportMode := .driving
  isGeneratingRoute := false
  routeError := none
  routeSummary := none

/-- `findNearestEvents(start, count = 10)`: annotate every event with its
distance from `start`, sort ascending by distance, keep the first `count`. -/
def findNearestEvents (d : DistFn) (events : List EventWithCoords) (start : Pos)
    (count : Nat := 10) : List (EventWithCoords × ℚ) :=
  (jsSort (fun a b => decide (a.2 ≤ b.2))
    (events.map fun e => (e, d start.lat start.lng e.latitude e.longitude))).take count

/-- The shared success continuation of both location paths: store the
resolved coordinate, compute the nearby candidates, pre-select all of them
and move to the `events` step. -/
def applyLocationSuccess (d : DistFn) (events : List EventWithCoords)
    (s : PanelState) (loc : Pos) : PanelState :=
  let nearby := findNearestEvents d events loc
  { s with
      startLocation := some loc
      nearbyEvents := nearby
      selectedEventIds := (nearby.map fun p => p.1.id).toFinset
      step := .events }

/-- Net effect of a successful `handleUseMyLocation` geolocation callback. -/
def handleUseMyLocationSuccess (d : DistFn) (events : List EventWithCoords)
    (s : PanelState) (loc : Pos) : PanelState :=
  { applyLocationSuccess d events s loc with
      isGettingLocation := false
      locationError := none }

/-- Net effect of a successful `handleLookupAddress` geocode response. -/
def handleLookupAddressSuccess (d : DistFn) (events : List EventWithCoords)
    (s : PanelState) (loc : Pos) : PanelState :=
  { applyLocationSuccess d events s loc with
      isGeocodingAddress := false
      locationError := none }

/-- Net effect of a failed `handleLookupAddress` geocode response carrying
the endpoint's optional error string: surface the message (or the generic
fallback) and stay on the current step. -/
def handleLookupAddressFailure (s : PanelState) (err : Option String) : PanelState :=
  { s with
      locationError := some (match err with
        | none => "Failed to find address"
        | some e => if e = "" then "Failed to find address" else e)
      isGeocodingAddress := false }

/-- The "Next" button of the events step: disabled while fewer than two
events are selected, otherwise advances to the transport step. -/
def nextFromEvents (s : PanelState) : PanelState :=
  if s.selectedEventIds.card < 2 then s else { s with step := .transport }

/-- A simplified Mapbox directions route of the `DirectionsResponse` type. -/
structure DirectionsRoute where
  geometry : String
  distance : ℚ
  duration : ℚ
  legs : List (ℚ × ℚ)
deriving DecidableEq, Repr

/-- The parsed JSON of the `/api/directions` fetch, plus the HTTP `ok`
flag; `routes = none` models an absent `routes` field. -/
structure FetchResponse where
  ok : Bool
  error : Option String
  routes : Option (List DirectionsRoute)
deriving DecidableEq, Repr

/-- Either a parsed response or a thrown fetch/parse exception. -/
inductive FetchResult
  | resp (r : FetchResponse)
  | threw
deriving DecidableEq, Repr

/-- JavaScript `s || fallback` on an optional string. -/
def jsOrElse (s : Option String) (fallback : String) : String :=
  match s with
  | none => fallback
  | some v => if v = "" then fallback else v

/-- The failure test of `handleGenerateRoute`:
`!response.ok || !data.routes || data.routes.length === 0`, with a thrown
exception landing in the `catch` branch. -/
def isGenerateFailure : FetchResult → Bool
  | .threw => true
  | .resp r =>
    if !r.ok then true
    else match r.routes with
      | none => true
      | some [] => true
      | some (_ :: _) => false

/-- The error message surfaced on failure:
`data.error || 'Failed to generate route'`, or the catch-branch fallback. -/
def generateFailureMessage : FetchResult → String
  | .threw => "Failed to generate route"
  | .resp r => jsOrElse r.error "Failed to generate route"

/-- Net effect of `handleGenerateRoute` once the directions fetch has
settled: the early-return guard, then either the failure branch (surface
the message, stay) or the success branch (store the summary, show the
route). The request building (greedy ordering of the selected events) only
feeds the fetch, whose settled outcome is the `res` argument. -/
def applyGenerateSuccess (s : PanelState) : FetchResult → PanelState
  | .resp r =>
    match r.routes with
    | some (route :: _) =>
      { s with
          routeError := none
          routeSummary := some ⟨route.distance, route.duration, route.legs⟩
          step := .route
          isGeneratingRoute := false }
    | _ => s
  | .threw => s

def handleGenerateRoute (d : DistFn) (s : PanelState) (res : FetchResult) : PanelState :=
  if s.startLocation = none ∨ s.selectedEventIds.card < 2 then s
  else if isGenerateFailure res then
    { s with
        routeError := some (generateFailureMessage res)
        isGeneratingRoute := false }
  else applyGenerateSuccess s res

/-- `handleClearRoute`: reset the wizard to the location step, prefilled
with the last known geolocation. -/
def handleClearRoute (s : PanelState) (userLocation : Option Pos) : PanelState :=
  { s with
      step := .location
      startLocation := userLocation
      locationError := none
      addressInput := ""
      cityInput := ""
      nearbyEvents := []
      selectedEventIds := ∅
      routeError := none
      routeSummary := none }

end EventRoutePanel

/-- C3: on every successful geolocation or geocoding result in the location
step, the wizard moves to the events step with a candidate pool of exactly
`min 10 (number of available events)` events nearest to the resolved
coordinate — the pool is sorted ascending by distance and every event
outside the pool is at least as far as every pool member — and every
candidate is pre-selected. -/
theorem claim3_location_success_selects_nearest (d : DistFn)
    (events : List EventRoutePanel.EventWithCoords)
    (s : EventRoutePanel.PanelState) (loc : Pos) :
    let s1 := EventRoutePanel.handleUseMyLocationSuccess d events s loc
    let s2 := EventRoutePanel.handleLookupAddressSuccess d events s loc
    s1.step = EventRoutePanel.Step.events ∧
    s2.step = EventRoutePanel.Step.events ∧
    s1.nearbyEvents = EventRoutePanel.findNearestEvents d events loc ∧
    s2.nearbyEvents = EventRoutePanel.findNearestEvents d events loc ∧
    s1.startLocation = some loc ∧
    s2.startLocation = some loc ∧
    s1.nearbyEvents.length = min 10 events.length ∧
    s1.selectedEventIds = (s1.nearbyEvents.map fun p => p.1.id).toFinset ∧
    s2.selectedEventIds = s1.selectedEventIds ∧
    (∀ p ∈ s1.nearbyEvents, p.1.id ∈ s1.selectedEventIds) ∧
    List.Pairwise (fun p q : EventRoutePanel.EventWithCoords × ℚ => p.2 ≤ q.2) s1.nearbyEvents ∧
    (∃ rest,
      (s1.nearbyEvents ++ rest).Perm
        (events.map fun e => (e, d loc.lat loc.lng e.latitude e.longitude)) ∧
      ∀ p ∈ s1.nearbyEvents, ∀ q ∈ rest, p.2 ≤ q.2) := by
  intro s1 s2
  set le : (EventRoutePanel.EventWithCoords × ℚ) → (EventRoutePanel.EventWithCoords × ℚ) → Bool :=
    fun a b => decide (a.2 ≤ b.2) with hle
  set annotated := events.map fun e => (e, d loc.lat loc.lng e.latitude e.longitude)
    with hannotated
  have hsorted : List.Pairwise (fun x y => le x y = true) (jsSort le annotated) :=
    jsSort_pairwise
      (fun x _ y _ => by
        rw [hle]
        simp only [decide_eq_true_eq]
        exact le_total x.2 y.2)
      (fun x _ y _ z _ hxy hyz => by
        rw [hle] at hxy hyz ⊢
        simp only [decide_eq_true_eq] at hxy hyz ⊢
        exact le_trans hxy hyz)
  have hsorted' : List.Pairwise (fun p q : EventRoutePanel.EventWithCoords × ℚ => p.2 ≤ q.2)
      (jsSort le annotated) := by
    refine hsorted.imp ?_
    intro a b hab
    rw [hle] at hab
    simpa using hab
  have hnear : s1.nearbyEvents = (jsSort le annotated).take 10 := rfl
  refine ⟨rfl, rfl, rfl, rfl, rfl, rfl, ?_, rfl, rfl, ?_, ?_, ?_⟩
  · rw [hnear, List.length_take, length_jsSort, hannotated, List.length_map]
  · intro p hp
    show p.1.id ∈ (s1.nearbyEvents.map fun p => p.1.id).toFinset
    exact List.mem_toFinset.mpr (List.mem_map_of_mem _ hp)
  · rw [hnear]
    exact hsorted'.sublist (List.take_sublist 10 _)
  · refine ⟨(jsSort le annotated).drop 10, ?_, ?_⟩
    · rw [hnear, List.take_append_drop]
      exact jsSort_perm le annotated
    · intro p hp q hq
      have hsplit := hsorted'
      rw [← List.take_append_drop 10 (jsSort le annotated)] at hsplit
      exact ((List.pairwise_append.mp hsplit).2.2) p (by rw [hnear] at hp; exact hp) q hq

/-- C4: in the events step, the forward transition to the transport step
happens only with at least 2 selected events: with exactly one selected
event the "Next" button is disabled and the state is unchanged, while with
two or more the wizard advances to the transport step (leaving the
selection intact). -/
theorem claim4_advance_requires_two_selected (s : EventRoutePanel.PanelState)
    (hstep : s.step = EventRoutePanel.Step.events) :
    (s.selectedEventIds.card = 1 →
      EventRoutePanel.nextFromEvents s = s ∧
      (EventRoutePanel.nextFromEvents s).step = EventRoutePanel.Step.events) ∧
    (2 ≤ s.selectedEventIds.card →
      (EventRoutePanel.nextFromEvents s).step = EventRoutePanel.Step.transport ∧
      (EventRoutePanel.nextFromEvents s).selectedEventIds = s.selectedEventIds) := by
  constructor
  · intro h1
    have hlt : s.selectedEventIds.card < 2 := by omega
    rw [EventRoutePanel.nextFromEvents, if_pos hlt]
    exact ⟨rfl, hstep⟩
  · intro h2
    have hlt : ¬ s.selectedEventIds.card < 2 := by omega
    rw [EventRoutePanel.nextFromEvents, if_neg hlt]
    exact ⟨rfl, rfl⟩

/-- A concrete events-step state with exactly one selected event. -/
def sampleOneSelected : EventRoutePanel.PanelState :=
  { EventRoutePanel.initialPanelState (some ⟨-(78 : ℚ), 35⟩) with
      step := EventRoutePanel.Step.events
      selectedEventIds := {"e1"} }

/-- A concrete events-step state with two selected events. -/
def sampleTwoSelected : EventRoutePanel.PanelState :=
  { EventRoutePanel.initialPanelState (some ⟨-(78 : ℚ), 35⟩) with
      step := EventRoutePanel.Step.events
      selectedEventIds := {"e1", "e2"} }

/-- Witness for C4 at the two concrete states. -/
theorem claim4_advance_requires_two_selected_witness :
    (EventRoutePanel.nextFromEvents sampleOneSelected = sampleOneSelected ∧
      (EventRoutePanel.nextFromEvents sampleOneSelected).step = EventRoutePanel.Step.events) ∧
    ((EventRoutePanel.nextFromEvents sampleTwoSelected).step =
        EventRoutePanel.Step.transport ∧
      (EventRoutePanel.nextFromEvents sampleTwoSelected).selectedEventIds =
        sampleTwoSelected.selectedEventIds) :=
  ⟨(claim4_advance_requires_two_selected sampleOneSelected rfl).1 (by decide),
    (claim4_advance_requires_two_selected sampleTwoSelected rfl).2 (by decide)⟩

/-- C6: a failed directions request issued from the transport step leaves
the wizard in the transport step with the service's error message (or the
generic fallback) surfaced, and every other piece of wizard state — in
particular the selected events and the start coordinate — unchanged. -/
theorem claim6_failed_directions_preserves_state (d : DistFn)
    (s : EventRoutePanel.PanelState) (res : EventRoutePanel.FetchResult)
    (hstep : s.step = EventRoutePanel.Step.transport)
    (hstart : s.startLocation ≠ none)
    (hsel : 2 ≤ s.selectedEventIds.card)
    (hfail : EventRoutePanel.isGenerateFailure res = true) :
    let s1 := EventRoutePanel.handleGenerateRoute d s res
    s1.step = EventRoutePanel.Step.transport ∧
    s1.routeError = some (EventRoutePanel.generateFailureMessage res) ∧
    s1.selectedEventIds = s.selectedEventIds ∧
    s1.startLocation = s.startLocation ∧
    s1.nearbyEvents = s.nearbyEvents ∧
    s1.routeSummary = s.routeSummary ∧
    s1.addressInput = s.addressInput ∧
    s1.cityInput = s.cityInput ∧
    s1.transportMode = s.transportMode := by
  intro s1
  have hguard : ¬ (s.startLocation = none ∨ s.selectedEventIds.card < 2) := by
    rintro (h | h)
    · exact hstart h
    · omega
  have hs1 : s1 = { s with
      routeError := some (EventRoutePanel.generateFailureMessage res)
      isGeneratingRoute := false } := by
    show EventRoutePanel.handleGenerateRoute d s res = _
    rw [EventRoutePanel.handleGenerateRoute, if_neg hguard, if_pos hfail]
  rw [hs1]
  exact ⟨hstep, rfl, rfl, rfl, rfl, rfl, rfl, rfl, rfl⟩

/-- A concrete transport-step state about to issue a directions request. -/
def sampleTransportState : EventRoutePanel.PanelState :=
  { EventRoutePanel.initialPanelState (some ⟨-(78 : ℚ), 35⟩) with
      step := EventRoutePanel.Step.transport
      selectedEventIds := {"e1", "e2"}
      transportMode := EventRoutePanel.TransportMode.walking }

/-- A concrete failed directions response (`404`, `No route found`). -/
def sampleFailedResponse : EventRoutePanel.FetchResult :=
  .resp { ok := false, error := some "No route found", routes := none }

/-- Witness for C6 at a concrete state and failed response. -/
theorem claim6_failed_directions_preserves_state_witness :
    (EventRoutePanel.handleGenerateRoute (fun _ _ _ _ => 0) sampleTransportState
        sampleFailedResponse).step = EventRoutePanel.Step.transport ∧
    (EventRoutePanel.handleGenerateRoute (fun _ _ _ _ => 0) sampleTransportState
        sampleFailedResponse).routeError = some "No route found" ∧
    (EventRoutePanel.handleGenerateRoute (fun _ _ _ _ => 0) sampleTransportState
        sampleFailedResponse).selectedEventIds = sampleTransportState.selectedEventIds := by
  have h := claim6_failed_directions_preserves_state (fun _ _ _ _ => 0)
    sampleTransportState sampleFailedResponse rfl (by decide) (by decide) (by decide)
  exact ⟨h.1, h.2.1, h.2.2.1⟩

/-- A concrete showing-route state whose transport mode is `walking`. -/
def sampleRouteShownState : EventRoutePanel.PanelState :=
  { EventRoutePanel.initialPanelState (some ⟨-(78 : ℚ), 35⟩) with
      step := EventRoutePanel.Step.route
      selectedEventIds := {"e1", "e2"}
      transportMode := EventRoutePanel.TransportMode.walking
      routeSummary := some ⟨1000, 600, [(500, 300), (500, 300)]⟩ }

/-- Counterexample to C7 as stated: clearing the route does NOT reset all
remaining state — the previously chosen transport mode (`walking`) is
retained rather than reset to the initial default (`driving`), so the
cleared state differs from the initial wizard state. -/
theorem claim7_counterexample :
    (EventRoutePanel.handleClearRoute sampleRouteShownState
        (some ⟨-(78 : ℚ), 35⟩)).transportMode = EventRoutePanel.TransportMode.walking ∧
    (EventRoutePanel.initialPanelState
        (some ⟨-(78 : ℚ), 35⟩)).transportMode = EventRoutePanel.TransportMode.driving ∧
    EventRoutePanel.handleClearRoute sampleRouteShownState (some ⟨-(78 : ℚ), 35⟩) ≠
      EventRoutePanel.initialPanelState (some ⟨-(78 : ℚ), 35⟩) := by
  refine ⟨rfl, rfl, ?_⟩
  intro h
  have := congrArg EventRoutePanel.PanelState.transportMode h
  simp [EventRoutePanel.handleClearRoute, EventRoutePanel.initialPanelState,
    sampleRouteShownState] at this

/-- C7 (amended): clearing a shown route resets the wizard to the location
step, empties the selected-event set, candidate pool, address inputs, route
summary and error messages, and preserves a previously obtained geolocation
coordinate as the new default start; the chosen transport mode (and the
transient in-flight request flags) are retained from the prior state rather
than reset. -/
theorem claim7_clear_route_amended (s : EventRoutePanel.PanelState)
    (userLocation : Option Pos) :
    EventRoutePanel.handleClearRoute s userLocation =
      { EventRoutePanel.initialPanelState userLocation with
          transportMode := s.transportMode
          isGettingLocation := s.isGettingLocation
          isGeocodingAddress := s.isGeocodingAddress
          isGeneratingRoute := s.isGeneratingRoute } :=
  rfl

/-! ### Shared helpers for the two city-grouping implementations -/

/-- JavaScript object key insertion: a key is appended on first sight. -/
def insertKey (ks : List String) (k : String) : List String :=
  if k ∈ ks then ks else ks ++ [k]

/-- The keys of `grouped` in insertion order. -/
def groupKeysBy (f : α → String) (evs : List α) : List String :=
  evs.foldl (fun ks e => insertKey ks (f e)) []

theorem mem_foldl_insertKey (f : α → String) :
    ∀ (evs : List α) (acc : List String) (k : String),
      k ∈ evs.foldl (fun ks e => insertKey ks (f e)) acc ↔
        k ∈ acc ∨ ∃ e ∈ evs, f e = k := by
  intro evs
  induction evs with
  | nil => intro acc k; simp
  | cons e t ih =>
    intro acc k
    rw [List.foldl_cons, ih]
    constructor
    · rintro (hacc | hex)
      · rw [insertKey] at hacc
        by_cases hmem : f e ∈ acc
        · rw [if_pos hmem] at hacc
          exact Or.inl hacc
        · rw [if_neg hmem] at hacc
          rcases List.mem_append.mp hacc with h | h
          · exact Or.inl h
          · simp only [List.mem_singleton] at h
            exact Or.inr ⟨e, by simp, h.symm⟩
      · rcases hex with ⟨e0, he0, hf⟩
        exact Or.inr ⟨e0, by simp [he0], hf⟩
    · rintro (hacc | ⟨e0, he0, hf⟩)
      · left
        rw [insertKey]
        by_cases hmem : f e ∈ acc
        · rw [if_pos hmem]; exact hacc
        · rw [if_neg hmem]; exact List.mem_append.mpr (Or.inl hacc)
      · rcases List.mem_cons.mp he0 with rfl | he0
        · left
          rw [insertKey]
          by_cases hmem : f e0 ∈ acc
          · rw [if_pos hmem]; rw [← hf]; exact hmem
          · rw [if_neg hmem]; exact List.mem_append.mpr (Or.inr (by simp [hf]))
        · exact Or.inr ⟨e0, he0, hf⟩

theorem mem_groupKeysBy {f : α → String} {evs : List α} {k : String} :
    k ∈ groupKeysBy f evs ↔ ∃ e ∈ evs, f e = k := by
  rw [groupKeysBy, mem_foldl_insertKey]
  simp

/-- When an accumulated minimum starts at a lower bound of the remaining
values, folding `min` leaves it unchanged. -/
theorem foldl_min_eq_init (g : α → ℚ) :
    ∀ (xs : List α) (a : ℚ), (∀ e ∈ xs, a ≤ g e) →
      xs.foldl (fun m e => min m (g e)) a = a := by
  intro xs
  induction xs with
  | nil => intro a _; rfl
  | cons e t ih =>
    intro a h
    rw [List.foldl_cons, min_eq_left (h e (by simp))]
    exact ih a fun x hx => h x (by simp [hx])

/-- When every element of a list satisfies the predicate, `find?` returns
the head. -/
theorem find?_eq_head?_of_all (p : α → Bool) :
    ∀ (l : List α), (∀ e ∈ l, p e = true) → l.find? p = l.head? := by
  intro l h
  cases l with
  | nil => rfl
  | cons x t =>
    rw [List.find?_cons, h x (by simp)]
    rfl

/-- In a pairwise-related list, everything a fixed point `k` relates
forward to being `k` itself forces `k` to be the last element. -/
theorem pairwise_getLast?_of_mem {R : String → String → Prop} {k : String}
    (habs : ∀ y, R k y → y = k) :
    ∀ (l : List String), List.Pairwise R l → k ∈ l → l.getLast? = some k := by
  intro l
  induction l with
  | nil => intro _ h; simp at h
  | cons a t ih =>
    intro hp hm
    rcases List.mem_cons.mp hm with rfl | hm
    · cases t with
      | nil => rfl
      | cons b s =>
        have hall := (List.pairwise_cons.mp hp).1
        have hb : b = k := habs b (hall b (by simp))
        rw [List.getLast?_cons_cons]
        exact ih (List.pairwise_cons.mp hp).2 (by simp [hb])
    · cases t with
      | nil => simp at hm
      | cons b s =>
        rw [List.getLast?_cons_cons]
        exact ih (List.pairwise_cons.mp hp).2 hm

/-! ### Map page (`routes/map.tsx`, part_009): loader, filter, grouping -/

namespace MapPage

/-- A database event as supplied by `getAllEvents`, before the loader's
coordinate filter. -/
structure RawEvent where
  id : String
  title : String
  description : String
  location : String
  coordinates : Option Pos
  date : String
  times : Option String
  cost : Option String
  categories : Option (List String)
  city : Option String
deriving DecidableEq, Repr

/-- The map page's `EventWithCoords` interface. -/
structure EventWithCoords where
  id : String
  title : String
  description : String
  location : String
  latitude : ℚ
  longitude : ℚ
  date : String
  times : Option String
  cost : Option String
  categories : List String
  city : Option String
deriving DecidableEq, Repr

/-- The loader's per-event conversion (only applied to events whose
coordinates are present; the `getD` default is never read). -/
def convertRaw (r : RawEvent) : EventWithCoords where
  id := r.id
  title := r.title
  description := r.description
  location := r.location
  latitude := (r.coordinates.getD ⟨0, 0⟩).lat
  longitude := (r.coordinates.getD ⟨0, 0⟩).lng
  date := r.date
  times := r.times
  cost := r.cost
  categories := r.categories.getD []
  city := r.city

/-- The map page loader: keep only events with coordinates, then convert. -/
def loaderEvents (raws : List RawEvent) : List EventWithCoords :=
  (raws.filter fun r => r.coordinates.isSome).map convertRaw

/-- The map page's date filter: exact string equality with the selected
date. -/
def filteredEvents (events : List EventWithCoords) (filterDate : String) : List EventWithCoords :=
  events.filter fun e => e.date = filterDate

/-- `event.city || 'Other'`. -/
def cityOf (e : EventWithCoords) : String :=
  match e.city with
  | none => "Other"
  | some c => if c = "" then "Other" else c

/-- Keys of the `grouped` object in insertion order. -/
def groupKeys (evs : List EventWithCoords) : List String :=
  groupKeysBy cityOf evs

/-- The member list of one city group. -/
def members (evs : List EventWithCoords) (c : String) : List EventWithCoords :=
  evs.filter fun e => cityOf e = c

/-- `cityDistances[city]`: the average distance of the group's members
from the user location (`reduce` sum divided by length). -/
def avgDistance (d : DistFn) (u : Pos) (evs : List EventWithCoords) (c : String) : ℚ :=
  ((members evs c).map fun e => d u.lat u.lng e.latitude e.longitude).sum /
    (members evs c).length

/-- The city comparator of the map page, as `cmp(a, b) <= 0`: `'Other'`
sorts after everything, otherwise by average distance when a user location
exists, else alphabetically.  (On the pair `('Other', 'Other')`, which
never arises among the deduplicated keys, the model makes the comparator
reflexive so that it is total.) -/
def cityMetricLE (d : DistFn) (uLoc : Option Pos) (evs : List EventWithCoords)
    (a b : String) : Bool :=
  match uLoc with
  | some u => decide (avgDistance d u evs a ≤ avgDistance d u evs b)
  | none => decide (a ≤ b)

def cityLE (d : DistFn) (uLoc : Option Pos) (evs : List EventWithCoords)
    (a b : String) : Bool :=
  if a = "Other" then decide (b = "Other")
  else if b = "Other" then true
  else cityMetricLE d uLoc evs a b

/-- `sortedCities` of the map page. -/
def sortedCityKeys (d : DistFn) (uLoc : Option Pos) (evs : List EventWithCoords) : List String :=
  jsSort (cityLE d uLoc evs) (groupKeys evs)

/-- `eventsByCity`: the sorted city groups, members sorted by proximity
when a user location exists. -/
def eventsByCity (d : DistFn) (uLoc : Option Pos) (evs : List EventWithCoords) :
    List (String × List EventWithCoords) :=
  (sortedCityKeys d uLoc evs).map fun c =>
    (c,
      match uLoc with
      | some u =>
        jsSort
          (fun a b =>
            decide (d u.lat u.lng a.latitude a.longitude ≤ d u.lat u.lng b.latitude b.longitude))
          (members evs c)
      | none => members evs c)

/-- The distance from the user location to the group's nearest member (the
measure the spec claims the groups are sorted by). -/
def nearestMemberDist (d : DistFn) (u : Pos) (evs : List EventWithCoords) (c : String) : ℚ :=
  match members evs c with
  | [] => 0
  | x :: xs =>
    xs.foldl (fun m e => min m (d u.lat u.lng e.latitude e.longitude))
      (d u.lat u.lng x.latitude x.longitude)

end MapPage

/-! ### Map component (`MapComponent`, part_018): filter, sort, grouping -/

namespace MapComponent

/-- An event as consumed by the map component (typed `any[]` in the
source): date, coordinates and city are all optional. -/
structure AnyEvent where
  id : String
  title : String
  date : Option String
  coordinates : Option Pos
  city : Option String
deriving DecidableEq, Repr

/-- The component's date filter: events without a date are dropped, the
rest compare after normalising the stored date to `YYYY-MM-DD` (the
normalisation `new Date(_).toISOString().split('T')[0]` is the abstract
parameter `norm`). -/
def filteredEvents (norm : String → String) (events : List AnyEvent)
    (selectedDate : String) : List AnyEvent :=
  events.filter fun e =>
    match e.date with
    | none => false
    | some d0 => if d0 = "" then false else decide (norm d0 = selectedDate)

/-- The event comparator of `sortedFilteredEvents` as `cmp <= 0`: events
missing coordinates compare as `0` against anything. -/
def evLE (d : DistFn) (u : Pos) (a b : AnyEvent) : Bool :=
  match a.coordinates, b.coordinates with
  | some ca, some cb => decide (d u.lat u.lng ca.lat ca.lng ≤ d u.lat u.lng cb.lat cb.lng)
  | _, _ => true

/-- `sortedFilteredEvents`: proximity sort of the filtered events when a
user location is known. -/
def sortedFilteredEvents (d : DistFn) (uLoc : Option Pos)
    (filtered : List AnyEvent) : List AnyEvent :=
  match uLoc with
  | some u => if 0 < filtered.length then jsSort (evLE d u) filtered else filtered
  | none => filtered

/-- `event.city || 'Unknown Location'`. -/
def cityOf (e : AnyEvent) : String :=
  match e.city with
  | none => "Unknown Location"
  | some c => if c = "" then "Unknown Location" else c

/-- Keys of `groupedByCity` in insertion order. -/
def groupKeys (evs : List AnyEvent) : List String :=
  groupKeysBy cityOf evs

/-- The member list of one city group (grouping preserves list order). -/
def members (evs : List AnyEvent) (c : String) : List AnyEvent :=
  evs.filter fun e => cityOf e = c

/-- The city comparator of `sortedCities` as `cmp <= 0`: compare the first
member with coordinates of each group ("closest" thanks to the prior
proximity sort); any missing piece makes the comparator return `0`. -/
def cityLE (d : DistFn) (uLoc : Option Pos) (sortedEvs : List AnyEvent)
    (a b : String) : Bool :=
  match uLoc with
  | none => true
  | some u =>
    match (members sortedEvs a).find? (fun e => e.coordinates.isSome),
        (members sortedEvs b).find? (fun e => e.coordinates.isSome) with
    | some ea, some eb =>
      match ea.coordinates, eb.coordinates with
      | some ca, some cb =>
        decide (d u.lat u.lng ca.lat ca.lng ≤ d u.lat u.lng cb.lat cb.lng)
      | _, _ => true
    | _, _ => true

/-- `sortedCities` of the map component, from the already date-filtered
event list. -/
def sortedCities (d : DistFn) (uLoc : Option Pos) (filtered : List AnyEvent) : List String :=
  jsSort (cityLE d uLoc (sortedFilteredEvents d uLoc filtered))
    (groupKeys (sortedFilteredEvents d uLoc filtered))

/-- The events feeding the clustering GeoJSON source: the date-filtered
events that have coordinates. -/
def clusterSourceEvents (norm : String → String) (events : List AnyEvent)
    (selectedDate : String) : List AnyEvent :=
  (filteredEvents norm events selectedDate).filter fun e => e.coordinates.isSome

/-- Distance from the user location to an event (0 without coordinates;
only used on events that have them). -/
def distOf (d : DistFn) (u : Pos) (e : AnyEvent) : ℚ :=
  match e.coordinates with
  | some c => d u.lat u.lng c.lat c.lng
  | none => 0

/-- The distance from the user location to the group's nearest member. -/
def nearestMemberDist (d : DistFn) (u : Pos) (evs : List AnyEvent) (c : String) : ℚ :=
  match members evs c with
  | [] => 0
  | x :: xs => xs.foldl (fun m e => min m (distOf d u e)) (distOf d u x)

end MapComponent

/-! ### C2: city-group ordering -/

theorem mapPage_cityLE_total (d : DistFn) (uLoc : Option Pos)
    (evs : List MapPage.EventWithCoords) (a b : String) :
    MapPage.cityLE d uLoc evs a b = true ∨ MapPage.cityLE d uLoc evs b a = true := by
  by_cases ha : a = "Other"
  · by_cases hb : b = "Other"
    · left
      rw [MapPage.cityLE, if_pos ha]
      exact decide_eq_true hb
    · right
      rw [MapPage.cityLE, if_neg hb, if_pos ha]
  · by_cases hb : b = "Other"
    · left
      rw [MapPage.cityLE, if_neg ha, if_pos hb]
    · rw [MapPage.cityLE, if_neg ha, if_neg hb, MapPage.cityLE, if_neg hb, if_neg ha]
      cases uLoc with
      | none =>
        simp only [MapPage.cityMetricLE]
        rcases le_total a b with h | h
        · exact Or.inl (decide_eq_true h)
        · exact Or.inr (decide_eq_true h)
      | some u =>
        simp only [MapPage.cityMetricLE]
        rcases le_total (MapPage.avgDistance d u evs a) (MapPage.avgDistance d u evs b)
          with h | h
        · exact Or.inl (decide_eq_true h)
        · exact Or.inr (decide_eq_true h)

theorem mapPage_cityLE_trans (d : DistFn) (uLoc : Option Pos)
    (evs : List MapPage.EventWithCoords) (a b c : String)
    (hab : MapPage.cityLE d uLoc evs a b = true)
    (hbc : MapPage.cityLE d uLoc evs b c = true) :
    MapPage.cityLE d uLoc evs a c = true := by
  by_cases ha : a = "Other"
  · rw [MapPage.cityLE, if_pos ha] at hab
    have hb : b = "Other" := of_decide_eq_true hab
    rw [MapPage.cityLE, if_pos hb] at hbc
    have hc : c = "Other" := of_decide_eq_true hbc
    rw [MapPage.cityLE, if_pos ha]
    exact decide_eq_true hc
  · by_cases hb : b = "Other"
    · rw [MapPage.cityLE, if_pos hb] at hbc
      have hc : c = "Other" := of_decide_eq_true hbc
      rw [MapPage.cityLE, if_neg ha, if_pos hc]
    · by_cases hc : c = "Other"
      · rw [MapPage.cityLE, if_neg ha, if_pos hc]
      · rw [MapPage.cityLE, if_neg ha, if_neg hb] at hab
        rw [MapPage.cityLE, if_neg hb, if_neg hc] at hbc
        rw [MapPage.cityLE, if_neg ha, if_neg hc]
        cases uLoc with
        | none =>
          simp only [MapPage.cityMetricLE] at hab hbc ⊢
          exact decide_eq_true (le_trans (of_decide_eq_true hab) (of_decide_eq_true hbc))
        | some u =>
          simp only [MapPage.cityMetricLE] at hab hbc ⊢
          exact decide_eq_true (le_trans (of_decide_eq_true hab) (of_decide_eq_true hbc))

theorem mapPage_sortedCityKeys_pairwise (d : DistFn) (u : Pos)
    (evs : List MapPage.EventWithCoords) :
    List.Pairwise
      (fun a b => b = "Other" ∨ (a ≠ "Other" ∧
        MapPage.avgDistance d u evs a ≤ MapPage.avgDistance d u evs b))
      (MapPage.sortedCityKeys d (some u) evs) := by
  have hP :
      List.Pairwise (fun a b => MapPage.cityLE d (some u) evs a b = true)
        (jsSort (MapPage.cityLE d (some u) evs) (MapPage.groupKeys evs)) :=
    jsSort_pairwise (fun x _ y _ => mapPage_cityLE_total d (some u) evs x y)
      (fun x _ y _ z _ hxy hyz => mapPage_cityLE_trans d (some u) evs x y z hxy hyz)
  refine hP.imp ?_
  intro a b hab
  by_cases ha : a = "Other"
  · rw [MapPage.cityLE, if_pos ha] at hab
    exact Or.inl (of_decide_eq_true hab)
  · by_cases hb : b = "Other"
    · exact Or.inl hb
    · rw [MapPage.cityLE, if_neg ha, if_neg hb] at hab
      simp only [MapPage.cityMetricLE] at hab
      exact Or.inr ⟨ha, of_decide_eq_true hab⟩

theorem mapPage_other_last (d : DistFn) (u : Pos)
    (evs : List MapPage.EventWithCoords)
    (h : "Other" ∈ MapPage.sortedCityKeys d (some u) evs) :
    (MapPage.sortedCityKeys d (some u) evs).getLast? = some "Other" := by
  refine pairwise_getLast?_of_mem ?_ _ (mapPage_sortedCityKeys_pairwise d u evs) h
  intro y hy
  rcases hy with hy | ⟨hne, _⟩
  · exact hy
  · exact absurd rfl hne

theorem mapComponent_evLE_total (d : DistFn) (u : Pos) (a b : MapComponent.AnyEvent) :
    MapComponent.evLE d u a b = true ∨ MapComponent.evLE d u b a = true := by
  cases hac : a.coordinates with
  | none => left; simp [MapComponent.evLE, hac]
  | some ca =>
    cases hbc : b.coordinates with
    | none => left; simp [MapComponent.evLE, hac, hbc]
    | some cb =>
      simp only [MapComponent.evLE, hac, hbc, decide_eq_true_eq]
      exact le_total _ _

theorem mapComponent_evLE_trans_of_coords (d : DistFn) (u : Pos)
    {a b c : MapComponent.AnyEvent}
    (ha : a.coordinates.isSome = true) (hb : b.coordinates.isSome = true)
    (hc : c.coordinates.isSome = true)
    (hab : MapComponent.evLE d u a b = true)
    (hbc : MapComponent.evLE d u b c = true) :
    MapComponent.evLE d u a c = true := by
  rcases Option.isSome_iff_exists.mp ha with ⟨ca, hca⟩
  rcases Option.isSome_iff_exists.mp hb with ⟨cb, hcb⟩
  rcases Option.isSome_iff_exists.mp hc with ⟨cc, hcc⟩
  simp only [MapComponent.evLE, hca, hcb, hcc, decide_eq_true_eq] at hab hbc ⊢
  exact le_trans hab hbc

theorem mapComponent_evLE_dist {d : DistFn} {u : Pos} {a b : MapComponent.AnyEvent}
    (ha : a.coordinates.isSome = true) (hb : b.coordinates.isSome = true) :
    MapComponent.evLE d u a b = true ↔
      MapComponent.distOf d u a ≤ MapComponent.distOf d u b := by
  rcases Option.isSome_iff_exists.mp ha with ⟨ca, hca⟩
  rcases Option.isSome_iff_exists.mp hb with ⟨cb, hcb⟩
  simp [MapComponent.evLE, MapComponent.distOf, hca, hcb]

theorem mapComponent_cityLE_total (d : DistFn) (uLoc : Option Pos)
    (sortedEvs : List MapComponent.AnyEvent) (a b : String) :
    MapComponent.cityLE d uLoc sortedEvs a b = true ∨
      MapComponent.cityLE d uLoc sortedEvs b a = true := by
  cases uLoc with
  | none => left; rfl
  | some u =>
    cases hfa : (MapComponent.members sortedEvs a).find? (fun e => e.coordinates.isSome) with
    | none => left; simp [MapComponent.cityLE, hfa]
    | some ea =>
      cases hfb : (MapComponent.members sortedEvs b).find? (fun e => e.coordinates.isSome) with
      | none => left; simp [MapComponent.cityLE, hfa, hfb]
      | some eb =>
        cases hca : ea.coordinates with
        | none => left; simp [MapComponent.cityLE, hfa, hfb, hca]
        | some ca =>
          cases hcb : eb.coordinates with
          | none => left; simp [MapComponent.cityLE, hfa, hfb, hca, hcb]
          | some cb =>
            simp only [MapComponent.cityLE, hfa, hfb, hca, hcb, decide_eq_true_eq]
            exact le_total _ _

/-- Characterisation of a group of the proximity-sorted event list when
every event has coordinates: the group is nonempty, its first member is
found by the comparator's `find`, and that member realises the group's
nearest-member distance. -/
theorem mapComponent_group_head (d : DistFn) (u : Pos)
    {sortedEvs : List MapComponent.AnyEvent}
    (hcoords : ∀ e ∈ sortedEvs, e.coordinates.isSome = true)
    (hpair : List.Pairwise (fun x y => MapComponent.evLE d u x y = true) sortedEvs)
    {c : String} (hc : c ∈ MapComponent.groupKeys sortedEvs) :
    ∃ x xs, MapComponent.members sortedEvs c = x :: xs ∧
      x.coordinates.isSome = true ∧
      (MapComponent.members sortedEvs c).find? (fun e => e.coordinates.isSome) = some x ∧
      MapComponent.nearestMemberDist d u sortedEvs c = MapComponent.distOf d u x := by
  rcases mem_groupKeysBy.mp hc with ⟨e, he, hce⟩
  have hmem : e ∈ MapComponent.members sortedEvs c :=
    List.mem_filter.mpr ⟨he, by simp [hce]⟩
  have hmem_sub : ∀ x ∈ MapComponent.members sortedEvs c, x ∈ sortedEvs := by
    intro x hx
    exact (List.mem_filter.mp hx).1
  cases hml : MapComponent.members sortedEvs c with
  | nil => rw [hml] at hmem; simp at hmem
  | cons x xs =>
    have hx_mem : x ∈ sortedEvs := hmem_sub x (by rw [hml]; simp)
    have hx_coords : x.coordinates.isSome = true := hcoords x hx_mem
    have hpair_members :
        List.Pairwise (fun a b => MapComponent.evLE d u a b = true)
          (MapComponent.members sortedEvs c) :=
      hpair.filter _
    rw [hml] at hpair_members
    have hx_min : ∀ e2 ∈ xs, MapComponent.distOf d u x ≤ MapComponent.distOf d u e2 := by
      intro e2 he2
      have he2_mem : e2 ∈ sortedEvs := hmem_sub e2 (by rw [hml]; simp [he2])
      exact (mapComponent_evLE_dist hx_coords (hcoords e2 he2_mem)).mp
        ((List.pairwise_cons.mp hpair_members).1 e2 he2)
    have hall : ∀ e2 ∈ x :: xs, (fun e : MapComponent.AnyEvent => e.coordinates.isSome) e2 = true := by
      intro e2 he2
      rcases List.mem_cons.mp he2 with rfl | he2
      · exact hx_coords
      · exact hcoords e2 (hmem_sub e2 (by rw [hml]; simp [he2]))
    refine ⟨x, xs, rfl, hx_coords, ?_, ?_⟩
    · rw [find?_eq_head?_of_all _ _ hall]
      rfl
    · rw [MapComponent.nearestMemberDist, hml]
      exact foldl_min_eq_init _ xs _ hx_min

theorem mapComponent_cityLE_iff (d : DistFn) (u : Pos)
    {sortedEvs : List MapComponent.AnyEvent}
    (hcoords : ∀ e ∈ sortedEvs, e.coordinates.isSome = true)
    (hpair : List.Pairwise (fun x y => MapComponent.evLE d u x y = true) sortedEvs)
    {a b : String} (ha : a ∈ MapComponent.groupKeys sortedEvs)
    (hb : b ∈ MapComponent.groupKeys sortedEvs) :
    (MapComponent.cityLE d (some u) sortedEvs a b = true ↔
      MapComponent.nearestMemberDist d u sortedEvs a ≤
        MapComponent.nearestMemberDist d u sortedEvs b) := by
  rcases mapComponent_group_head d u hcoords hpair ha with
    ⟨xa, xsa, hmla, hxa_coords, hfind_a, hdist_a⟩
  rcases mapComponent_group_head d u hcoords hpair hb with
    ⟨xb, xsb, hmlb, hxb_coords, hfind_b, hdist_b⟩
  rcases Option.isSome_iff_exists.mp hxa_coords with ⟨ca, hca⟩
  rcases Option.isSome_iff_exists.mp hxb_coords with ⟨cb, hcb⟩
  rw [hdist_a, hdist_b]
  simp [MapComponent.cityLE, hfind_a, hfind_b, hca, hcb, MapComponent.distOf]

/-- The proximity-sorted filtered list is pairwise ordered by the event
comparator whenever every filtered event has coordinates. -/
theorem mapComponent_sortedFilteredEvents_pairwise (d : DistFn) (u : Pos)
    {filtered : List MapComponent.AnyEvent}
    (hcoords : ∀ e ∈ filtered, e.coordinates.isSome = true) :
    List.Pairwise (fun x y => MapComponent.evLE d u x y = true)
      (MapComponent.sortedFilteredEvents d (some u) filtered) := by
  simp only [MapComponent.sortedFilteredEvents]
  by_cases hlen : 0 < filtered.length
  · rw [if_pos hlen]
    exact jsSort_pairwise (fun x _ y _ => mapComponent_evLE_total d u x y)
      (fun x hx y hy z hz hxy hyz =>
        mapComponent_evLE_trans_of_coords d u (hcoords x hx) (hcoords y hy) (hcoords z hz)
          hxy hyz)
  · rw [if_neg hlen]
    have : filtered = [] := List.length_eq_zero.mp (by omega)
    subst this
    exact List.Pairwise.nil

theorem mapComponent_sortedFilteredEvents_mem (d : DistFn) (uLoc : Option Pos)
    {filtered : List MapComponent.AnyEvent} {e : MapComponent.AnyEvent}
    (he : e ∈ MapComponent.sortedFilteredEvents d uLoc filtered) : e ∈ filtered := by
  cases uLoc with
  | none => exact he
  | some u =>
    simp only [MapComponent.sortedFilteredEvents] at he
    by_cases hlen : 0 < filtered.length
    · rw [if_pos hlen] at he
      exact mem_jsSort.mp he
    · rw [if_neg hlen] at he
      exact he

theorem mapComponent_sortedCities_pairwise (d : DistFn) (u : Pos)
    (filtered : List MapComponent.AnyEvent)
    (hcoords : ∀ e ∈ filtered, e.coordinates.isSome = true) :
    List.Pairwise
      (fun a b =>
        MapComponent.nearestMemberDist d u
          (MapComponent.sortedFilteredEvents d (some u) filtered) a ≤
        MapComponent.nearestMemberDist d u
          (MapComponent.sortedFilteredEvents d (some u) filtered) b)
      (MapComponent.sortedCities d (some u) filtered) := by
  have hcoords' : ∀ e ∈ MapComponent.sortedFilteredEvents d (some u) filtered,
      e.coordinates.isSome = true :=
    fun e he => hcoords e (mapComponent_sortedFilteredEvents_mem d (some u) he)
  have hpair := mapComponent_sortedFilteredEvents_pairwise d u hcoords
  have hP :
      List.Pairwise
        (fun a b =>
          MapComponent.cityLE d (some u)
            (MapComponent.sortedFilteredEvents d (some u) filtered) a b = true)
        (MapComponent.sortedCities d (some u) filtered) := by
    refine jsSort_pairwise (fun x _ y _ => mapComponent_cityLE_total d (some u) _ x y) ?_
    intro x hx y hy z hz hxy hyz
    rw [mapComponent_cityLE_iff d u hcoords' hpair hx hz]
    rw [mapComponent_cityLE_iff d u hcoords' hpair hx hy] at hxy
    rw [mapComponent_cityLE_iff d u hcoords' hpair hy hz] at hyz
    exact le_trans hxy hyz
  refine hP.imp_of_mem ?_
  intro a b ha hb hab
  have ha' : a ∈ MapComponent.groupKeys (MapComponent.sortedFilteredEvents d (some u) filtered) :=
    mem_jsSort.mp ha
  have hb' : b ∈ MapComponent.groupKeys (MapComponent.sortedFilteredEvents d (some u) filtered) :=
    mem_jsSort.mp hb
  exact (mapComponent_cityLE_iff d u hcoords' hpair ha' hb').mp hab

/-! Concrete data for the C2 counterexample. -/

/-- A concrete distance function for the counterexamples: the distance is
the target's latitude.  The sample events all sit north of the reference
location (latitude 0) on its meridian, so up to the constant
111 km/degree scale this is exactly how the Haversine distance from the
reference orders them. -/
def cxDist : DistFn := fun _ _ lat2 _ => lat2

/-- The reference location, at latitude 0. -/
def cxRef : Pos := ⟨-78, 0⟩

def cxApexNear : MapPage.EventWithCoords :=
  ⟨"a1", "Apex One", "", "", 1, -78, "2025-06-01", none, none, [], some "Apex"⟩

def cxCary : MapPage.EventWithCoords :=
  ⟨"c1", "Cary One", "", "", 2, -78, "2025-06-01", none, none, [], some "Cary"⟩

def cxApexFar : MapPage.EventWithCoords :=
  ⟨"a2", "Apex Two", "", "", 100, -78, "2025-06-01", none, none, [], some "Apex"⟩

/-- Apex has the nearest member (distance 1) but a far average (50.5);
Cary's single member is at distance 2. -/
def cxEvents9 : List MapPage.EventWithCoords := [cxApexNear, cxCary, cxApexFar]

def cxOther : MapPage.EventWithCoords :=
  ⟨"o1", "No City", "", "", 3, -78, "2025-06-01", none, none, [], none⟩

/-- A list whose only event lacks a city. -/
def cxOtherOnly : List MapPage.EventWithCoords := [cxOther]

def cxUnknown : MapComponent.AnyEvent :=
  ⟨"u1", "No City Event", some "2025-06-01", some ⟨-78, 1⟩, none⟩

def cxCary18 : MapComponent.AnyEvent :=
  ⟨"v1", "Cary Event", some "2025-06-01", some ⟨-78, 50⟩, some "Cary"⟩

/-- The catch-all group's member is nearest of all, so the catch-all
bucket sorts first, not last. -/
def cxEvents18 : List MapComponent.AnyEvent := [cxUnknown, cxCary18]

/-- Counterexample to C2 as stated: on the map page (`eventsByCity`),
`Apex` holds the nearest member (distance 1 < 2) yet the groups come out
as `["Cary", "Apex"]`, because the code sorts by the average member
distance, not the nearest member's; and in the map component
(`sortedCities`), the catch-all `"Unknown Location"` bucket sorts first,
not last, because that comparator gives it no special placement. -/
theorem claim2_counterexample :
    (MapPage.sortedCityKeys cxDist (some cxRef) cxEvents9 = ["Cary", "Apex"] ∧
      MapPage.nearestMemberDist cxDist cxRef cxEvents9 "Apex" <
        MapPage.nearestMemberDist cxDist cxRef cxEvents9 "Cary") ∧
    (MapComponent.sortedCities cxDist (some cxRef) cxEvents18 =
        ["Unknown Location", "Cary"] ∧
      "Unknown Location" ∈ MapComponent.sortedCities cxDist (some cxRef) cxEvents18 ∧
      (MapComponent.sortedCities cxDist (some cxRef) cxEvents18).getLast? ≠
        some "Unknown Location") := by
  have hmA : MapPage.members cxEvents9 "Apex" = [cxApexNear, cxApexFar] := by decide
  have hmC : MapPage.members cxEvents9 "Cary" = [cxCary] := by decide
  have hkeys : MapPage.groupKeys cxEvents9 = ["Apex", "Cary"] := by decide
  have havgA : MapPage.avgDistance cxDist cxRef cxEvents9 "Apex" = 101 / 2 := by
    rw [MapPage.avgDistance, hmA]
    norm_num [cxDist, cxApexNear, cxApexFar]
  have havgC : MapPage.avgDistance cxDist cxRef cxEvents9 "Cary" = 2 := by
    rw [MapPage.avgDistance, hmC]
    norm_num [cxDist, cxCary]
  have hle1 : MapPage.cityLE cxDist (some cxRef) cxEvents9 "Apex" "Cary" = false := by
    rw [MapPage.cityLE, if_neg (by decide), if_neg (by decide)]
    simp only [MapPage.cityMetricLE, havgA, havgC]
    norm_num
  have hsorted : MapPage.sortedCityKeys cxDist (some cxRef) cxEvents9 = ["Cary", "Apex"] := by
    rw [MapPage.sortedCityKeys, hkeys]
    simp [jsSort, jsOrderedInsert, hle1]
  have hnA : MapPage.nearestMemberDist cxDist cxRef cxEvents9 "Apex" = 1 := by
    rw [MapPage.nearestMemberDist, hmA]
    decide
  have hnC : MapPage.nearestMemberDist cxDist cxRef cxEvents9 "Cary" = 2 := by
    rw [MapPage.nearestMemberDist, hmC]
    decide
  refine ⟨⟨hsorted, ?_⟩, by decide, by decide, by decide⟩
  rw [hnA, hnC]
  norm_num

/-- C2 (amended): on the map page, with a reference location, the city
groups are ordered ascending by the **average** distance of each group's
members, and the catch-all `"Other"` bucket is always sorted last; in the
map component's list, when every filtered event has coordinates, the city
groups are ordered ascending by the distance of each group's nearest
member, with no special last placement of the catch-all bucket. -/
theorem claim2_city_groups_order_amended :
    (∀ (d : DistFn) (u : Pos) (evs : List MapPage.EventWithCoords),
      List.Pairwise
        (fun a b => b = "Other" ∨ (a ≠ "Other" ∧
          MapPage.avgDistance d u evs a ≤ MapPage.avgDistance d u evs b))
        (MapPage.sortedCityKeys d (some u) evs)) ∧
    (∀ (d : DistFn) (u : Pos) (evs : List MapPage.EventWithCoords),
      "Other" ∈ MapPage.sortedCityKeys d (some u) evs →
        (MapPage.sortedCityKeys d (some u) evs).getLast? = some "Other") ∧
    (∀ (d : DistFn) (u : Pos) (filtered : List MapComponent.AnyEvent),
      (∀ e ∈ filtered, e.coordinates.isSome = true) →
        List.Pairwise
          (fun a b =>
            MapComponent.nearestMemberDist d u
              (MapComponent.sortedFilteredEvents d (some u) filtered) a ≤
            MapComponent.nearestMemberDist d u
              (MapComponent.sortedFilteredEvents d (some u) filtered) b)
          (MapComponent.sortedCities d (some u) filtered)) :=
  ⟨mapPage_sortedCityKeys_pairwise, mapPage_other_last, mapComponent_sortedCities_pairwise⟩

/-- Witness for the amended C2 at concrete inputs. -/
theorem claim2_city_groups_order_amended_witness :
    (MapPage.sortedCityKeys cxDist (some cxRef) cxOtherOnly).getLast? = some "Other" ∧
    List.Pairwise
      (fun a b =>
        MapComponent.nearestMemberDist cxDist cxRef
          (MapComponent.sortedFilteredEvents cxDist (some cxRef) cxEvents18) a ≤
        MapComponent.nearestMemberDist cxDist cxRef
          (MapComponent.sortedFilteredEvents cxDist (some cxRef) cxEvents18) b)
      (MapComponent.sortedCities cxDist (some cxRef) cxEvents18) :=
  ⟨claim2_city_groups_order_amended.2.1 cxDist cxRef cxOtherOnly (by decide),
    claim2_city_groups_order_amended.2.2 cxDist cxRef cxEvents18 (by decide)⟩

/-! ### `/api/directions` (`api.directions.tsx`): request validation -/

namespace ApiDirections

/-- A coordinate as found in the request JSON; `none` models a field that
is absent or not a number (the `typeof !== 'number'` check). -/
structure RawCoord where
  lng : Option ℚ
  lat : Option ℚ
deriving DecidableEq, Repr

/-- The parsed request body; `coordinates = none` models an absent or
non-array `coordinates` field, `profile = none` an absent profile. -/
structure DirectionsRequest where
  coordinates : Option (List RawCoord)
  profile : Option String
deriving DecidableEq, Repr

/-- The action's observable outcome: an early JSON error response, or the
outgoing call to the external Mapbox directions endpoint. -/
inductive Outcome
  | reject (status : Nat) (error : String)
  | network (coords : List RawCoord) (profile : String)
deriving DecidableEq, Repr

def validProfiles : List String := ["walking", "cycling", "driving"]

/-- The per-coordinate validation loop: the first offending coordinate
determines the error (type check before range check, as in the source). -/
def checkCoords : List RawCoord → Option String
  | [] => none
  | c :: rest =>
    match c.lng, c.lat with
    | some lng, some lat =>
      if lng < -180 ∨ 180 < lng ∨ lat < -90 ∨ 90 < lat then
        some "Coordinates out of valid range"
      else checkCoords rest
    | _, _ => some "Each coordinate must have lng and lat as numbers"

/-- The `/api/directions` action up to the point where it either rejects
the request or issues the network call. -/
def action (tokenPresent : Bool) (body : Option DirectionsRequest) : Outcome :=
  if tokenPresent = false then .reject 500 "Mapbox token not configured"
  else
    match body with
    | none => .reject 400 "Invalid JSON body"
    | some b =>
      match b.profile with
      | none => .reject 400 "Invalid profile. Must be walking, cycling, or driving"
      | some p =>
        if p ∉ validProfiles then
          .reject 400 "Invalid profile. Must be walking, cycling, or driving"
        else
          match b.coordinates with
          | none => .reject 400 "At least 2 coordinates are required"
          | some coords =>
            if coords.length < 2 then .reject 400 "At least 2 coordinates are required"
            else if 25 < coords.length then .reject 400 "Maximum 25 coordinates allowed"
            else
              match checkCoords coords with
              | some msg => .reject 400 msg
              | none => .network coords p

/-- A coordinate violating the numeric type or range requirements. -/
def badCoord (c : RawCoord) : Bool :=
  match c.lng, c.lat with
  | some lng, some lat => decide (lng < -180 ∨ 180 < lng ∨ lat < -90 ∨ 90 < lat)
  | _, _ => true

/-- A request body violating the coordinate constraints of the claim:
absent coordinate list, fewer than 2 or more than 25 entries, or any entry
with a bad type or out-of-range value. -/
def coordsViolation (b : DirectionsRequest) : Bool :=
  match b.coordinates with
  | none => true
  | some coords =>
    decide (coords.length < 2) || decide (25 < coords.length) || coords.any badCoord

theorem checkCoords_some_of_bad :
    ∀ (coords : List RawCoord), (∃ c ∈ coords, badCoord c = true) →
      ∃ msg, checkCoords coords = some msg := by
  intro coords
  induction coords with
  | nil => rintro ⟨c, hc, _⟩; simp at hc
  | cons c rest ih =>
    rintro ⟨c0, hc0, hbad⟩
    cases hlng : c.lng with
    | none => exact ⟨"Each coordinate must have lng and lat as numbers", by
        simp only [checkCoords, hlng]⟩
    | some lng =>
      cases hlat : c.lat with
      | none => exact ⟨"Each coordinate must have lng and lat as numbers", by
          simp only [checkCoords, hlng, hlat]⟩
      | some lat =>
        by_cases hrange : lng < -180 ∨ 180 < lng ∨ lat < -90 ∨ 90 < lat
        · exact ⟨"Coordinates out of valid range", by
            simp only [checkCoords, hlng, hlat]
            rw [if_pos hrange]⟩
        · have hc0rest : c0 ∈ rest := by
            rcases List.mem_cons.mp hc0 with rfl | h
            · simp only [badCoord, hlng, hlat] at hbad
              exact absurd (of_decide_eq_true hbad) hrange
            · exact h
          rcases ih ⟨c0, hc0rest, hbad⟩ with ⟨msg, hmsg⟩
          exact ⟨msg, by
            simp only [checkCoords, hlng, hlat]
            rw [if_neg hrange]
            exact hmsg⟩

theorem action_reject_of_violation (b : DirectionsRequest)
    (h : coordsViolation b = true) :
    ∃ msg, action true (some b) = .reject 400 msg := by
  rw [action]
  simp only [Bool.true_eq_false, if_false]
  cases hp : b.profile with
  | none => exact ⟨"Invalid profile. Must be walking, cycling, or driving", rfl⟩
  | some p =>
    simp only []
    by_cases hvp : p ∉ validProfiles
    · exact ⟨"Invalid profile. Must be walking, cycling, or driving", by rw [if_pos hvp]⟩
    · rw [if_neg hvp]
      cases hc : b.coordinates with
      | none => exact ⟨"At least 2 coordinates are required", rfl⟩
      | some coords =>
        simp only []
        simp only [coordsViolation, hc, Bool.or_eq_true, decide_eq_true_eq,
          List.any_eq_true] at h
        by_cases hlen2 : coords.length < 2
        · exact ⟨"At least 2 coordinates are required", by rw [if_pos hlen2]⟩
        · rw [if_neg hlen2]
          by_cases hlen25 : 25 < coords.length
          · exact ⟨"Maximum 25 coordinates allowed", by rw [if_pos hlen25]⟩
          · rw [if_neg hlen25]
            have hbad : ∃ c ∈ coords, badCoord c = true := by
              rcases h with (h | h) | h
              · exact absurd h hlen2
              · exact absurd h hlen25
              · exact h
            rcases checkCoords_some_of_bad coords hbad with ⟨msg, hmsg⟩
            exact ⟨msg, by rw [hmsg]⟩

/-- A request with 26 coordinates. -/
def req26 : DirectionsRequest :=
  ⟨some (List.replicate 26 ⟨some 0, some 0⟩), some "driving"⟩

/-- A request whose second coordinate has latitude 95. -/
def reqLat95 : DirectionsRequest :=
  ⟨some [⟨some 0, some 0⟩, ⟨some 0, some 95⟩], some "driving"⟩

end ApiDirections

/-- C5: the directions action validates the coordinate count (2 to 25) and
each coordinate's numeric type and range before issuing any network call:
a violating request is never forwarded to the external endpoint (whatever
the token state), and with the token configured it is rejected with a
400 response; in particular a request with 26 coordinates and a request
containing latitude 95 are both rejected with 400 and never reach the
network. -/
theorem claim5_directions_validation :
    (∀ (tokenPresent : Bool) (b : ApiDirections.DirectionsRequest),
      ApiDirections.coordsViolation b = true →
        ∀ (coords : List ApiDirections.RawCoord) (p : String),
          ApiDirections.action tokenPresent (some b) ≠ .network coords p) ∧
    (∀ b : ApiDirections.DirectionsRequest,
      ApiDirections.coordsViolation b = true →
        ∃ msg, ApiDirections.action true (some b) = .reject 400 msg) ∧
    ApiDirections.action true (some ApiDirections.req26) =
      .reject 400 "Maximum 25 coordinates allowed" ∧
    ApiDirections.action true (some ApiDirections.reqLat95) =
      .reject 400 "Coordinates out of valid range" := by
  refine ⟨?_, ApiDirections.action_reject_of_violation, by decide, by decide⟩
  intro tokenPresent b hviol coords p
  cases tokenPresent with
  | false => rw [ApiDirections.action]; simp
  | true =>
    rcases ApiDirections.action_reject_of_violation b hviol with ⟨msg, hmsg⟩
    rw [hmsg]
    simp

/-- Witness for C5: the 26-coordinate request is a concrete violation that
the action rejects with status 400. -/
theorem claim5_directions_validation_witness :
    ApiDirections.coordsViolation ApiDirections.req26 = true ∧
    (∀ (coords : List ApiDirections.RawCoord) (p : String),
      ApiDirections.action true (some ApiDirections.req26) ≠ .network coords p) ∧
    ∃ msg, ApiDirections.action true (some ApiDirections.req26) = .reject 400 msg :=
  ⟨by decide,
    claim5_directions_validation.1 true ApiDirections.req26 (by decide),
    claim5_directions_validation.2.1 ApiDirections.req26 (by decide)⟩

/-! ### C8: date filtering and coordinate exclusion -/

/-- C8: an event dated `2025-06-01` appears in the date-filtered results
exactly for the selected date `2025-06-01` (in the map component after
normalisation, on the map page by exact string equality), and an event
without a coordinate never appears in the loader's output feeding the map
page nor in the clustering GeoJSON source of the map component. -/
theorem claim8_date_filter_and_coordinate_exclusion :
    (∀ (norm : String → String) (events : List MapComponent.AnyEvent)
        (e : MapComponent.AnyEvent) (sel : String),
      norm "2025-06-01" = "2025-06-01" → e ∈ events → e.date = some "2025-06-01" →
        (e ∈ MapComponent.filteredEvents norm events sel ↔ sel = "2025-06-01")) ∧
    (∀ (events : List MapPage.EventWithCoords) (e : MapPage.EventWithCoords) (sel : String),
      e ∈ events → e.date = "2025-06-01" →
        (e ∈ MapPage.filteredEvents events sel ↔ sel = "2025-06-01")) ∧
    (∀ (raws : List MapPage.RawEvent) (x : MapPage.EventWithCoords),
      x ∈ MapPage.loaderEvents raws →
        ∃ r ∈ raws, r.coordinates.isSome = true ∧ x = MapPage.convertRaw r) ∧
    (∀ (norm : String → String) (events : List MapComponent.AnyEvent) (sel : String)
        (e : MapComponent.AnyEvent),
      e.coordinates = none →
        e ∉ MapComponent.clusterSourceEvents norm events sel) := by
  refine ⟨?_, ?_, ?_, ?_⟩
  · intro norm events e sel hnorm hmem hdate
    rw [MapComponent.filteredEvents, List.mem_filter]
    rw [hdate]
    simp only [hnorm, decide_eq_true_eq]
    constructor
    · rintro ⟨-, h⟩
      rw [if_neg (by decide)] at h
      exact (of_decide_eq_true h).symm
    · rintro rfl
      refine ⟨hmem, ?_⟩
      rw [if_neg (by decide)]
      exact decide_eq_true rfl
  · intro events e sel hmem hdate
    rw [MapPage.filteredEvents, List.mem_filter, hdate]
    simp only [decide_eq_true_eq]
    constructor
    · rintro ⟨-, h⟩
      exact h.symm
    · rintro rfl
      exact ⟨hmem, rfl⟩
  · intro raws x hx
    rw [MapPage.loaderEvents, List.mem_map] at hx
    rcases hx with ⟨r, hr, hconv⟩
    rcases List.mem_filter.mp hr with ⟨hraws, hsome⟩
    exact ⟨r, hraws, hsome, hconv.symm⟩
  · intro norm events sel e hnone hmem
    rcases List.mem_filter.mp hmem with ⟨-, hsome⟩
    rw [hnone] at hsome
    simp at hsome

/-- A concrete dated event without coordinates. -/
def cxNoCoord : MapComponent.AnyEvent :=
  ⟨"n1", "No Coord Event", some "2025-06-01", none, none⟩

/-- Witness for C8 at concrete inputs, with the identity normalisation. -/
theorem claim8_date_filter_and_coordinate_exclusion_witness :
    (cxUnknown ∈ MapComponent.filteredEvents (fun s => s) [cxUnknown] "2025-06-01" ↔
      "2025-06-01" = "2025-06-01") ∧
    (cxApexNear ∈ MapPage.filteredEvents [cxApexNear] "2025-06-02" ↔
      "2025-06-02" = "2025-06-01") ∧
    cxNoCoord ∉ MapComponent.clusterSourceEvents (fun s => s) [cxNoCoord] "2025-06-01" :=
  ⟨claim8_date_filter_and_coordinate_exclusion.1 (fun s => s) [cxUnknown] cxUnknown
      "2025-06-01" rfl (by simp) rfl,
    claim8_date_filter_and_coordinate_exclusion.2.1 [cxApexNear] cxApexNear
      "2025-06-02" (by simp) rfl,
    claim8_date_filter_and_coordinate_exclusion.2.2.2 (fun s => s) [cxNoCoord]
      "2025-06-01" cxNoCoord rfl⟩

/-! ### `/api/geocode` (in `api.cron.cleanup.tsx`): authentication gate -/

namespace ApiGeocode

/-- The parsed geocode form; `none` models an absent field. -/
structure GeoForm where
  address : Option String
  city : Option String
  region : Option String
deriving DecidableEq, Repr

/-- The action's observable outcome: an early JSON error response, or the
outgoing forward-geocoding call carrying the built search query. -/
inductive Outcome
  | reject (status : Nat) (error : String)
  | network (searchQuery : String)
deriving DecidableEq, Repr

/-- `canUserCreateEvent` of `permissions.server.ts`: authors and admins
only; the role resolution (Clerk metadata plus the admin's simulated-role
cookie) is the abstract parameter `roleOf`. -/
def canUserCreateEvent (roleOf : String → String) (userId : String) : Bool :=
  decide (roleOf userId = "admin") || decide (roleOf userId = "author")

/-- The built search query: address, optional city and region, then the
fixed `NC` state qualifier, comma-joined. -/
def searchQuery (address : String) (city region : Option String) : String :=
  String.intercalate ", "
    ([address] ++
      (match city with
       | some c => if c = "" then [] else [c]
       | none => []) ++
      (match region with
       | some r => if r = "" then [] else [r]
       | none => []) ++
      ["NC"])

/-- The `/api/geocode` action up to the point where it either rejects the
request or issues the external geocoding call: authentication (401), then
the author/admin permission check (403), and only then is the form read
and the address validated (400) and the token checked (500). -/
def action (roleOf : String → String) (userId : Option String) (form : GeoForm)
    (tokenPresent : Bool) : Outcome :=
  match userId with
  | none => .reject 401 "Unauthorized"
  | some uid =>
    if canUserCreateEvent roleOf uid = false then
      .reject 403 "Only authors and admins can use geocoding"
    else
      match form.address with
      | none => .reject 400 "Address is required"
      | some addr =>
        if addr = "" then .reject 400 "Address is required"
        else if tokenPresent = false then .reject 500 "Mapbox token not configured"
        else .network (searchQuery addr form.city form.region)

end ApiGeocode

/-- C10: every geocode request from an unauthenticated requester is
rejected with 401 and every request from an authenticated user who is
neither author nor admin is rejected with 403, in both cases independently
of the submitted form (so before the address is read or validated); the
route panel's address-lookup path surfaces such a failure and stays on the
location step with the rest of the wizard state untouched, so the lookup
fails for users without author or admin rights. -/
theorem claim10_geocode_requires_author_or_admin :
    (∀ (roleOf : String → String) (form : ApiGeocode.GeoForm) (tokenPresent : Bool),
      ApiGeocode.action roleOf none form tokenPresent = .reject 401 "Unauthorized") ∧
    (∀ (roleOf : String → String) (uid : String) (form : ApiGeocode.GeoForm)
        (tokenPresent : Bool),
      roleOf uid ≠ "admin" → roleOf uid ≠ "author" →
        ApiGeocode.action roleOf (some uid) form tokenPresent =
          .reject 403 "Only authors and admins can use geocoding") ∧
    (∀ (s : EventRoutePanel.PanelState) (err : Option String),
      (EventRoutePanel.handleLookupAddressFailure s err).step = s.step ∧
      (EventRoutePanel.handleLookupAddressFailure s err).selectedEventIds =
        s.selectedEventIds ∧
      (EventRoutePanel.handleLookupAddressFailure s err).startLocation = s.startLocation ∧
      (EventRoutePanel.handleLookupAddressFailure s err).locationError ≠ none) ∧
    (∀ (s : EventRoutePanel.PanelState),
      (EventRoutePanel.handleLookupAddressFailure s
          (some "Only authors and admins can use geocoding")).locationError =
        some "Only authors and admins can use geocoding") := by
  refine ⟨fun _ _ _ => rfl, ?_, ?_, ?_⟩
  · intro roleOf uid form tokenPresent hadmin hauthor
    rw [ApiGeocode.action]
    rw [if_pos]
    rw [ApiGeocode.canUserCreateEvent]
    simp [hadmin, hauthor]
  · intro s err
    refine ⟨rfl, rfl, rfl, ?_⟩
    simp [EventRoutePanel.handleLookupAddressFailure]
  · intro s
    simp [EventRoutePanel.handleLookupAddressFailure]

/-- Witness for C10 with a concrete plain-user role assignment and form. -/
theorem claim10_geocode_requires_author_or_admin_witness :
    ApiGeocode.action (fun _ => "user") (some "user-1")
        ⟨some "123 Main St", some "Raleigh", none⟩ true =
      .reject 403 "Only authors and admins can use geocoding" ∧
    (EventRoutePanel.handleLookupAddressFailure sampleOneSelected
        (some "boom")).step = sampleOneSelected.step :=
  ⟨claim10_geocode_requires_author_or_admin.2.1 (fun _ => "user") "user-1"
      ⟨some "123 Main St", some "Raleigh", none⟩ true (by decide) (by decide),
    (claim10_geocode_requires_author_or_admin.2.2.1 sampleOneSelected (some "boom")).1⟩

end LocalEvents
